import Mathlib

/-!
Shallow embedding of the MySQLGuard component of yooztech/mcp_mysql
(src/app.py).  The guard holds two pieces of mutable state (the cached
inferred database name and the per-table column cache); every external
effect (the information_schema queries and the project-directory scan)
enters the embedding as an explicit argument, so each method becomes a
pure function from the pre-state and those inputs to the post-state and
an outcome.  A Python `raise ValueError` is modelled as `Except.error`
with a constructor per raise site; the mutations performed before a
raise are preserved in the returned post-state, matching Python
exception semantics.
-/

/-- Error taxonomy: one constructor per `raise ValueError` site in
`app.py`.  `invalidLimit` is the limit-range message, the three
column variants carry the offending identifier, `tableNotFound` is the
"table missing or has no columns" message, and `ambiguousDatabase` is
the resolver failure. -/
inductive Err where
  | invalidLimit : Err
  | invalidColumn : String → Err
  | invalidWhereColumn : String → Err
  | invalidOrderColumn : String → Err
  | tableNotFound : String → Err
  | ambiguousDatabase : Err
  deriving Repr, DecidableEq

/-- The mutable attributes of a `MySQLGuard` instance:
`inferred_db` and `_schema_cache` (keyed by the string "db.table",
modelled as an association list that is only ever extended with fresh
keys, matching dict insertion). -/
structure GuardState where
  inferredDb : Option String
  schemaCache : List (String × List String)
  deriving Repr, DecidableEq

/-- Python truthiness of an `Optional[str]`: `None` and the empty
string are falsy. -/
def truthyOptStr : Option String → Bool
  | none => false
  | some s => s != ""

/-- Helper for `dedupFirst`. -/
def dedupFirstAux (seen : List String) : List String → List String
  | [] => []
  | x :: xs => if x ∈ seen then dedupFirstAux seen xs else x :: dedupFirstAux (x :: seen) xs

/-- Model of Python `list(dict.fromkeys(l))`: removes duplicates,
keeping the first occurrence of each element in order. -/
def dedupFirst (l : List String) : List String := dedupFirstAux [] l

/-- The evidence dict built by `_infer_database_internal`.  `hints` is
an `Option` because the "hints" key is absent on the empty-candidates
early return; `matches` records the (file path, hints) entries
accumulated during the directory walk. -/
structure InternalEvidence where
  candidates : List String
  scanMatches : List (String × List String)
  hints : Option (List String)
  selected : Option String
  deriving Repr, DecidableEq

/-- The decision portion of `MySQLGuard._infer_database_internal`.  The
file scan is I/O; its outputs enter here as `rawHints` (the hint
strings accumulated into `found_hints`, in extraction order, possibly
with duplicates) and `matches` (the per-file evidence entries).
`candidates` is the result of `_non_system_databases()`. -/
def inferDatabaseInternal (candidates rawHints : List String)
    (scanMatches : List (String × List String)) :
    Option String × InternalEvidence :=
  if candidates.isEmpty then
    (none, { candidates := candidates, scanMatches := [], hints := none, selected := none })
  else
    let foundHints := dedupFirst rawHints
    let intersection := foundHints.filter (fun h => candidates.contains h)
    if intersection.length = 1 then
      (intersection.head?,
       { candidates := candidates, scanMatches := scanMatches,
         hints := some foundHints, selected := intersection.head? })
    else if intersection.isEmpty && candidates.length == 1 then
      (candidates.head?,
       { candidates := candidates, scanMatches := scanMatches,
         hints := some foundHints, selected := candidates.head? })
    else
      (none,
       { candidates := candidates, scanMatches := scanMatches,
         hints := some foundHints, selected := none })

/-- The single-candidate fallback tail of `_resolve_database`: if there
is exactly one accessible schema, cache and return it; otherwise raise
the ambiguity error, mutating nothing. -/
def resolveFallback (candidates : List String) (st : GuardState) :
    GuardState × Except Err String :=
  match candidates with
  | [c] => ({ st with inferredDb := some c }, .ok c)
  | _ => (st, .error .ambiguousDatabase)

/-- `MySQLGuard._resolve_database`.  `cwdHints` and `cwdMatches` stand
for the scan of `os.getcwd()` that the internal inference pass would
perform; `candidates` is `_non_system_databases()` (queried identically
inside the inference pass and for the fallback). -/
def resolveDatabase (candidates cwdHints : List String)
    (cwdMatches : List (String × List String)) (st : GuardState)
    (db : Option String) : GuardState × Except Err String :=
  if truthyOptStr db then (st, .ok (db.getD ""))
  else if truthyOptStr st.inferredDb then (st, .ok (st.inferredDb.getD ""))
  else
    let guessed := (inferDatabaseInternal candidates cwdHints cwdMatches).1
    if truthyOptStr guessed then
      ({ st with inferredDb := guessed }, .ok (guessed.getD ""))
    else
      resolveFallback candidates st

/-- `MySQLGuard._ensure_table_cached`.  `catalog db table` models the
information_schema.COLUMNS query returning the column names of the
table in ordinal order (empty when the table does not exist or has no
columns — the query cannot distinguish the two). -/
def ensureTableCached (catalog : String → String → List String)
    (st : GuardState) (db table : String) : GuardState × Except Err Unit :=
  let key := db ++ "." ++ table
  match st.schemaCache.lookup key with
  | some _ => (st, .ok ())
  | none =>
    let cols := catalog db table
    if cols.isEmpty then (st, .error (.tableNotFound table))
    else ({ st with schemaCache := (key, cols) :: st.schemaCache }, .ok ())

/-- One whitelist loop of `select_rows`: raise the given error at the
first entry not contained in the allow-list. -/
def checkCols (allowed : List String) (mk : String → Err) :
    List String → Except Err Unit
  | [] => .ok ()
  | c :: cs => if allowed.contains c then checkCols allowed mk cs else .error (mk c)

/-- Python `s.lstrip("-+")`: drop every leading '-' or '+'. -/
def lstripDashPlus (s : String) : String :=
  String.mk (s.data.dropWhile (fun ch => ch == '-' || ch == '+'))

/-- Python `s.startswith("-")`. -/
def startsWithDash (s : String) : Bool :=
  match s.data with
  | c :: _ => c == '-'
  | [] => false

/-- MySQL backtick quoting of an identifier, as done inline in
`select_rows` via f-strings. -/
def quoteId (c : String) : String := "`" ++ c ++ "`"

/-- A parameterized statement: the SQL text plus the bound parameters
in order.  `α` is the type of caller-supplied condition values. -/
structure Stmt (α : Type) where
  sql : String
  params : List α
  deriving DecidableEq

/-- `MySQLGuard.select_rows`, up to and including construction of the
SQL text and the bound-parameter tuple (the execution of the statement
against the server is I/O and out of the embedding).  `whereList`
models the `where` dict in insertion order; a `None` or empty dict is
the empty list (the code only iterates it when truthy, which is
observably the same). -/
def selectRows {α : Type} (catalog : String → String → List String)
    (candidates cwdHints : List String)
    (cwdMatches : List (String × List String)) (st : GuardState)
    (table : String) (db : Option String) (columns : Option (List String))
    (whereList : List (String × α)) (orderBy : List String)
    (limit : Int) : GuardState × Except Err (Stmt α) :=
  if limit ≤ 0 ∨ limit > 1000 then (st, .error .invalidLimit)
  else
    match resolveDatabase candidates cwdHints cwdMatches st db with
    | (st1, .error e) => (st1, .error e)
    | (st1, .ok dbname) =>
      match ensureTableCached catalog st1 dbname table with
      | (st2, .error e) => (st2, .error e)
      | (st2, .ok _) =>
        let allowedCols := (st2.schemaCache.lookup (dbname ++ "." ++ table)).getD []
        let colsRes : Except Err (List String) :=
          match columns with
          | some cs =>
            if cs.isEmpty then .ok allowedCols
            else
              match checkCols allowedCols Err.invalidColumn cs with
              | .error e => .error e
              | .ok _ => .ok cs
          | none => .ok allowedCols
        match colsRes with
        | .error e => (st2, .error e)
        | .ok selCols =>
          let wkeys := whereList.map Prod.fst
          match checkCols allowedCols Err.invalidWhereColumn wkeys with
          | .error e => (st2, .error e)
          | .ok _ =>
            match checkCols allowedCols Err.invalidOrderColumn
                (orderBy.map lstripDashPlus) with
            | .error e => (st2, .error e)
            | .ok _ =>
              let whereClauses := wkeys.map (fun k => quoteId k ++ " = %s")
              let params := whereList.map Prod.snd
              let orderClause :=
                if orderBy.isEmpty then ""
                else " ORDER BY " ++ String.intercalate ", "
                  (orderBy.map (fun ob =>
                    quoteId (lstripDashPlus ob) ++ " " ++
                      (if startsWithDash ob then "DESC" else "ASC")))
              let whereClause :=
                if whereClauses.isEmpty then ""
                else " WHERE " ++ String.intercalate " AND " whereClauses
              let colSql := String.intercalate ", " (selCols.map quoteId)
              let sql := "SELECT " ++ colSql ++ " FROM " ++ quoteId dbname ++
                "." ++ quoteId table ++ whereClause ++ orderClause ++
                " LIMIT " ++ toString limit
              (st2, .ok { sql := sql, params := params })

/-- Python `str.upper()` on the scalar values compared by
`get_table_schema` (key flags, index names, nullability), written over
the character list so that it evaluates by reduction. -/
def upperStr (s : String) : String := String.mk (s.data.map Char.toUpper)

/-- Raw row of the information_schema.COLUMNS query issued by
`get_table_schema`, in ordinal order. -/
structure ColRow where
  columnName : String
  dataType : String
  columnType : String
  isNullable : String
  columnDefault : Option String
  columnKey : String
  extra : String
  columnComment : String
  ordinalPosition : Int
  deriving Repr, DecidableEq

/-- Raw row of the information_schema.STATISTICS query, ordered by
INDEX_NAME then SEQ_IN_INDEX (the query's ORDER BY). -/
structure IdxRow where
  indexName : String
  nonUnique : Int
  indexType : String
  seqInIndex : Int
  columnName : String
  deriving Repr, DecidableEq

/-- Column descriptor dict built by `get_table_schema`. -/
structure ColumnDesc where
  name : String
  dataType : String
  columnType : String
  nullable : Bool
  default : Option String
  key : String
  extra : String
  comment : String
  ordinalPosition : Int
  deriving Repr, DecidableEq

/-- Secondary-index entry built by `get_table_schema`. -/
structure IndexInfo where
  name : String
  columns : List String
  unique : Bool
  indexType : String
  deriving Repr, DecidableEq

/-- The dict returned by `get_table_schema`. -/
structure TableSchemaResult where
  db : String
  table : String
  comment : Option String
  columns : List ColumnDesc
  primaryKey : List String
  indexes : List IndexInfo
  deriving Repr, DecidableEq

/-- The per-column dict construction of `get_table_schema`. -/
def mkColumnDesc (r : ColRow) : ColumnDesc :=
  { name := r.columnName, dataType := r.dataType, columnType := r.columnType,
    nullable := upperStr r.isNullable == "YES", default := r.columnDefault,
    key := r.columnKey, extra := r.extra, comment := r.columnComment,
    ordinalPosition := r.ordinalPosition }

/-- First pass of `get_table_schema` over the column rows: the
primary-key columns whose COLUMN_KEY flag upper-cases to "PRI", in
ordinal order. -/
def primaryKeyFromFlags (colRows : List ColRow) : List String :=
  (colRows.filter (fun r => upperStr r.columnKey == "PRI")).map
    (fun r => r.columnName)

/-- One step of the STATISTICS loop of `get_table_schema`: a PRIMARY
row appends its column to the flag-derived primary key when missing
there; any other row grows the insertion-ordered index map. -/
def statsStep (acc : List String × List IndexInfo) (r : IdxRow) :
    List String × List IndexInfo :=
  if upperStr r.indexName == "PRIMARY" then
    (if acc.1.contains r.columnName then acc.1 else acc.1 ++ [r.columnName], acc.2)
  else
    if acc.2.any (fun i => i.name == r.indexName) then
      (acc.1, acc.2.map (fun i =>
        if i.name == r.indexName then
          { i with columns := i.columns ++ [r.columnName] }
        else i))
    else
      (acc.1, acc.2 ++ [{ name := r.indexName, columns := [r.columnName],
                          unique := r.nonUnique == 0,
                          indexType := r.indexType }])

/-- The whole STATISTICS loop: reconcile the flag-derived primary key
against the index rows and build the secondary-index list. -/
def reconcileStats (pk : List String) (idxRows : List IdxRow) :
    List String × List IndexInfo :=
  idxRows.foldl statsStep (pk, [])

/-- `MySQLGuard.get_table_schema`.  The three catalog queries enter as
functions of (db, table): the COLUMNS rows, the optional table comment
and the STATISTICS rows. -/
def getTableSchema (candidates cwdHints : List String)
    (cwdMatches : List (String × List String))
    (colCatalog : String → String → List ColRow)
    (commentCatalog : String → String → Option String)
    (idxCatalog : String → String → List IdxRow)
    (st : GuardState) (table : String) (db : Option String) :
    GuardState × Except Err TableSchemaResult :=
  match resolveDatabase candidates cwdHints cwdMatches st db with
  | (st1, .error e) => (st1, .error e)
  | (st1, .ok dbname) =>
    let colRows := colCatalog dbname table
    if colRows.isEmpty then (st1, .error (.tableNotFound table))
    else
      let pkIdx := reconcileStats (primaryKeyFromFlags colRows)
        (idxCatalog dbname table)
      (st1, .ok { db := dbname, table := table,
                  comment := commentCatalog dbname table,
                  columns := colRows.map mkColumnDesc,
                  primaryKey := pkIdx.1, indexes := pkIdx.2 })

/-- `MySQLGuard.list_tables`: resolve the database, then a catalog
query (tables of the schema, lexicographic). -/
def listTables (candidates cwdHints : List String)
    (cwdMatches : List (String × List String))
    (tablesCatalog : String → List String) (st : GuardState)
    (db : Option String) : GuardState × Except Err (List String) :=
  match resolveDatabase candidates cwdHints cwdMatches st db with
  | (st1, .error e) => (st1, .error e)
  | (st1, .ok dbname) => (st1, .ok (tablesCatalog dbname))

/-- The sanitized evidence dict returned by the `infer_database` tool
when `include_evidence` is true. -/
structure ExternalEvidence where
  candidatesCount : Nat
  hintCount : Nat
  selected : Bool
  method : Option Bool
  deriving Repr, DecidableEq

/-- The evidence-sanitizing step of the `infer_database` tool.
`method` models the Python expression
(ev.get("selected") and "selected" in ev or None): True when a truthy
selection exists in the evidence, None otherwise. -/
def externalizeEvidence (ev : InternalEvidence) : ExternalEvidence :=
  { candidatesCount := ev.candidates.length,
    hintCount := match ev.hints with | some l => l.length | none => 0,
    selected := ev.selected.isSome,
    method := match ev.selected with
      | some s => if s != "" then some true else none
      | none => none }

/-- The dict returned by the `infer_database` tool. -/
structure InferToolResult where
  db : Option String
  evidence : Option ExternalEvidence
  deriving Repr, DecidableEq

/-- The `infer_database` tool: run the internal inference over the
requested project root (whose scan outputs enter as `rawHints` and
`matches`), cache a truthy result in `guard.inferred_db`, and attach
the sanitized evidence when requested. -/
def inferDatabaseTool (candidates rawHints : List String)
    (scanMatches : List (String × List String)) (st : GuardState)
    (includeEvidence : Bool) : GuardState × InferToolResult :=
  let r := inferDatabaseInternal candidates rawHints scanMatches
  let st' := if truthyOptStr r.1 then { st with inferredDb := r.1 } else st
  (st', { db := r.1,
          evidence := if includeEvidence then
            some (externalizeEvidence r.2) else none })

/-- Whether an `Except` is a success. -/
def exceptIsOk {ε α : Type} : Except ε α → Bool
  | .ok _ => true
  | .error _ => false

/-- Modelled from the spec's wording for order_by entries ("a column
name optionally prefixed with a single direction character"): strip
one optional leading '-' or '+'. -/
def stripOneDirMark (s : String) : String :=
  match s.data with
  | '-' :: rest => String.mk rest
  | '+' :: rest => String.mk rest
  | _ => s

/-! ### Helper lemmas about the validation and resolution primitives -/

theorem checkCols_ok_iff (allowed : List String) (mk : String → Err)
    (l : List String) :
    checkCols allowed mk l = .ok () ↔ ∀ c ∈ l, c ∈ allowed := by
  induction l with
  | nil => simp [checkCols]
  | cons c cs ih =>
    by_cases hmem : c ∈ allowed
    · simp [checkCols, hmem, ih, List.forall_mem_cons]
    · simp [checkCols, hmem, List.forall_mem_cons]

theorem checkCols_error_shape (allowed : List String) (mk : String → Err)
    (l : List String) (e : Err) (h : checkCols allowed mk l = .error e) :
    ∃ c, c ∈ l ∧ c ∉ allowed ∧ e = mk c := by
  induction l with
  | nil => simp [checkCols] at h
  | cons c cs ih =>
    simp only [checkCols] at h
    split at h
    · obtain ⟨d, hd, hcon, he⟩ := ih h
      exact ⟨d, List.mem_cons_of_mem _ hd, hcon, he⟩
    · rename_i hcond
      simp only [Except.error.injEq] at h
      refine ⟨c, List.mem_cons_self c cs, ?_, h.symm⟩
      simpa using hcond

theorem resolveFallback_error (candidates : List String) (st : GuardState)
    (e : Err) (h : (resolveFallback candidates st).2 = .error e) :
    e = .ambiguousDatabase := by
  rcases candidates with _ | ⟨c, _ | ⟨d, cs⟩⟩
  · simp [resolveFallback] at h
    exact h.symm
  · simp [resolveFallback] at h
  · simp [resolveFallback] at h
    exact h.symm

theorem resolveDatabase_error (candidates cwdHints : List String)
    (cwdMatches : List (String × List String)) (st : GuardState)
    (db : Option String) (e : Err)
    (h : (resolveDatabase candidates cwdHints cwdMatches st db).2 = .error e) :
    e = .ambiguousDatabase := by
  simp only [resolveDatabase] at h
  split at h
  · simp at h
  · split at h
    · simp at h
    · split at h
      · simp at h
      · exact resolveFallback_error _ _ _ h

theorem ensureTableCached_error (catalog : String → String → List String)
    (st : GuardState) (db table : String) (e : Err)
    (h : (ensureTableCached catalog st db table).2 = .error e) :
    e = .tableNotFound table := by
  simp only [ensureTableCached] at h
  split at h
  · simp at h
  · split at h
    · simp at h
      exact h.symm
    · simp at h

/-! ### C1: the inference decision rule -/

/-- C1: one inference pass over the deduplicated hints H (first-seen
order) and the accessible-schema list C decides as follows: a singleton
intersection of H with C selects its element; an empty intersection
together with a single accessible schema selects that schema; in every
other case (C empty, zero matches with several schemas, several
matches) no decision is returned. -/
theorem infer_decision_rule (candidates rawHints : List String)
    (scanMatches : List (String × List String)) :
    (∀ x : String,
      (dedupFirst rawHints).filter (fun h => candidates.contains h) = [x] →
      (inferDatabaseInternal candidates rawHints scanMatches).1 = some x) ∧
    (∀ c : String,
      (dedupFirst rawHints).filter (fun h => candidates.contains h) = [] →
      candidates = [c] →
      (inferDatabaseInternal candidates rawHints scanMatches).1 = some c) ∧
    (((dedupFirst rawHints).filter (fun h => candidates.contains h)).length ≠ 1 →
      ¬((dedupFirst rawHints).filter (fun h => candidates.contains h) = [] ∧
        candidates.length = 1) →
      (inferDatabaseInternal candidates rawHints scanMatches).1 = none) := by
  refine ⟨?_, ?_, ?_⟩
  · intro x hx
    cases hc : candidates.isEmpty with
    | true =>
      rw [List.isEmpty_iff] at hc
      subst hc
      simp at hx
    | false =>
      simp only [inferDatabaseInternal, hc, Bool.false_eq_true, if_false]
      rw [hx]
      simp
  · intro c hinter hcand
    subst hcand
    simp only [inferDatabaseInternal]
    rw [hinter]
    simp
  · intro h1 h2
    cases hc : candidates.isEmpty with
    | true => simp [inferDatabaseInternal, hc]
    | false =>
      have h2' : ¬((((dedupFirst rawHints).filter
          (fun h => candidates.contains h)).isEmpty &&
          (candidates.length == 1)) = true) := by
        simp only [Bool.and_eq_true, List.isEmpty_iff, beq_iff_eq]
        exact fun hcontra => h2 ⟨hcontra.1, hcontra.2⟩
      simp only [inferDatabaseInternal, hc, Bool.false_eq_true, if_false]
      rw [if_neg h1, if_neg h2']

/-- Closed instance of `infer_decision_rule`: the hint "shop" against
accessible schemas shop and billing selects shop. -/
theorem infer_decision_rule_witness :
    (inferDatabaseInternal ["shop", "billing"] ["shop"] []).1 = some "shop" := by
  exact (infer_decision_rule ["shop", "billing"] ["shop"] []).1 "shop" (by decide)

/-! ### C2: resolver priority -/

/-- A fresh guard state: nothing inferred, empty schema cache. -/
def initState : GuardState := { inferredDb := none, schemaCache := [] }

/-- C2: for every call needing a schema the resolver tries, in order
and short-circuiting on success: (1) the caller's explicit name, used
as-is with no validation; (2) the cached inferred database; (3) a fresh
inference pass rooted at the current working directory, cached on
success; (4) the single accessible schema when exactly one exists,
cached; and otherwise it fails with the ambiguity error — in particular,
zero accessible schemas with no explicit or cached name yields that
error rather than a crash. -/
theorem resolver_priority (candidates cwdHints : List String)
    (cwdMatches : List (String × List String)) (st : GuardState) :
    (∀ s : String, s ≠ "" →
      resolveDatabase candidates cwdHints cwdMatches st (some s) = (st, .ok s)) ∧
    (∀ db : Option String, truthyOptStr db = false →
      ∀ d : String, st.inferredDb = some d → d ≠ "" →
      resolveDatabase candidates cwdHints cwdMatches st db = (st, .ok d)) ∧
    (∀ db : Option String, truthyOptStr db = false →
      truthyOptStr st.inferredDb = false →
      ∀ g : String,
      (inferDatabaseInternal candidates cwdHints cwdMatches).1 = some g →
      g ≠ "" →
      resolveDatabase candidates cwdHints cwdMatches st db =
        ({ st with inferredDb := some g }, .ok g)) ∧
    (∀ db : Option String, truthyOptStr db = false →
      truthyOptStr st.inferredDb = false →
      truthyOptStr (inferDatabaseInternal candidates cwdHints cwdMatches).1 = false →
      ∀ c : String, candidates = [c] →
      resolveDatabase candidates cwdHints cwdMatches st db =
        ({ st with inferredDb := some c }, .ok c)) ∧
    (∀ db : Option String, truthyOptStr db = false →
      truthyOptStr st.inferredDb = false →
      truthyOptStr (inferDatabaseInternal candidates cwdHints cwdMatches).1 = false →
      candidates.length ≠ 1 →
      resolveDatabase candidates cwdHints cwdMatches st db =
        (st, .error .ambiguousDatabase)) ∧
    (∀ db : Option String, truthyOptStr db = false →
      truthyOptStr st.inferredDb = false →
      candidates = [] →
      resolveDatabase candidates cwdHints cwdMatches st db =
        (st, .error .ambiguousDatabase)) := by
  refine ⟨?_, ?_, ?_, ?_, ?_, ?_⟩
  · intro s hs
    have h1 : truthyOptStr (some s) = true := by simp [truthyOptStr, hs]
    simp [resolveDatabase, h1]
  · intro db hdb d hd hdne
    have h2 : truthyOptStr st.inferredDb = true := by
      rw [hd]
      simp [truthyOptStr, hdne]
    simp only [resolveDatabase, hdb, Bool.false_eq_true, if_false]
    rw [if_pos h2, hd]
    simp
  · intro db hdb hinf g hg hgne
    have h3 : truthyOptStr
        (inferDatabaseInternal candidates cwdHints cwdMatches).1 = true := by
      rw [hg]
      simp [truthyOptStr, hgne]
    simp only [resolveDatabase, hdb, hinf, Bool.false_eq_true, if_false]
    rw [if_pos h3, hg]
    simp
  · intro db hdb hinf hguess c hcand
    subst hcand
    simp [resolveDatabase, hdb, hinf, hguess, resolveFallback]
  · intro db hdb hinf hguess hlen
    rcases hcand : candidates with _ | ⟨c, _ | ⟨d, cs⟩⟩
    · subst hcand
      simp [resolveDatabase, hdb, hinf, hguess, resolveFallback]
    · simp [hcand] at hlen
    · subst hcand
      simp [resolveDatabase, hdb, hinf, hguess, resolveFallback]
  · intro db hdb hinf hcand
    subst hcand
    have hg0 : truthyOptStr (inferDatabaseInternal [] cwdHints cwdMatches).1
        = false := by
      simp [inferDatabaseInternal, truthyOptStr]
    simp [resolveDatabase, hdb, hinf, hg0, resolveFallback]

/-- Closed instance of `resolver_priority`: an explicit name wins
immediately and leaves the state untouched. -/
theorem resolver_priority_witness :
    resolveDatabase ["shop", "billing"] [] [] initState (some "shop") =
      (initState, .ok "shop") := by
  exact (resolver_priority ["shop", "billing"] [] [] initState).1 "shop" (by decide)

/-! ### C10: empty column list behaves like an omitted one -/

/-- C10: a select_rows call whose columns argument is the empty list
behaves exactly as if columns were omitted: the empty list is not
rejected, and all columns of the table are selected in catalog order. -/
theorem empty_columns_like_omitted {α : Type}
    (catalog : String → String → List String)
    (candidates cwdHints : List String)
    (cwdMatches : List (String × List String)) (st : GuardState)
    (table : String) (db : Option String) (whereList : List (String × α))
    (orderBy : List String) (limit : Int) :
    selectRows catalog candidates cwdHints cwdMatches st table db (some [])
      whereList orderBy limit =
    selectRows catalog candidates cwdHints cwdMatches st table db none
      whereList orderBy limit := rfl

/-! ### C6: limit precondition -/

/-- With the limit in range, no later failure of select_rows is the
limit error: the resolver raises only the ambiguity error, the cache
fill only a not-found error, and the whitelist loops only the three
identifier errors. -/
theorem selectRows_no_limit_error {α : Type}
    (catalog : String → String → List String)
    (candidates cwdHints : List String)
    (cwdMatches : List (String × List String)) (st : GuardState)
    (table : String) (db : Option String) (columns : Option (List String))
    (whereList : List (String × α)) (orderBy : List String) (limit : Int)
    (hlim : ¬(limit ≤ 0 ∨ limit > 1000)) :
    (selectRows catalog candidates cwdHints cwdMatches st table db columns
      whereList orderBy limit).2 ≠ .error .invalidLimit := by
  intro hcontra
  simp only [selectRows] at hcontra
  rw [if_neg hlim] at hcontra
  split at hcontra
  · rename_i st1 e heq
    simp only [Except.error.injEq] at hcontra
    subst hcontra
    have := resolveDatabase_error candidates cwdHints cwdMatches st db _
      (by rw [heq])
    simp at this
  · rename_i st1 dbname heq
    split at hcontra
    · rename_i st2 e heq2
      simp only [Except.error.injEq] at hcontra
      subst hcontra
      have := ensureTableCached_error catalog st1 dbname table _ (by rw [heq2])
      simp at this
    · rename_i st2 u heq2
      split at hcontra
      · rename_i e heq3
        simp only [Except.error.injEq] at hcontra
        subst hcontra
        split at heq3
        · split at heq3
          · simp at heq3
          · split at heq3
            · rename_i e' heq4
              simp only [Except.error.injEq] at heq3
              subst heq3
              obtain ⟨c, _, _, hshape⟩ := checkCols_error_shape _ _ _ _ heq4
              simp at hshape
            · simp at heq3
        · simp at heq3
      · rename_i selCols heq3
        split at hcontra
        · rename_i e heq4
          simp only [Except.error.injEq] at hcontra
          subst hcontra
          obtain ⟨c, _, _, hshape⟩ := checkCols_error_shape _ _ _ _ heq4
          simp at hshape
        · rename_i u2 heq4
          split at hcontra
          · rename_i e heq5
            simp only [Except.error.injEq] at hcontra
            subst hcontra
            obtain ⟨c, _, _, hshape⟩ := checkCols_error_shape _ _ _ _ heq5
            simp at hshape
          · rename_i u3 heq5
            simp at hcontra

/-- The catalog of the running example: database shop, table users
with columns id, email, created_at. -/
def demoCatalog : String → String → List String :=
  fun db table =>
    if db == "shop" && table == "users" then ["id", "email", "created_at"]
    else []

/-- C6: select_rows fails with the limit error exactly when the limit
lies outside the integer range 1..1000, whatever every other argument
and the guard state are (the check precedes any catalog access);
limit 1000 is accepted and produces the statement capped at
LIMIT 1000 on the running example. -/
theorem select_rows_limit_rule :
    (∀ (α : Type) (catalog : String → String → List String)
      (candidates cwdHints : List String)
      (cwdMatches : List (String × List String)) (st : GuardState)
      (table : String) (db : Option String) (columns : Option (List String))
      (whereList : List (String × α)) (orderBy : List String) (limit : Int),
      (selectRows catalog candidates cwdHints cwdMatches st table db columns
        whereList orderBy limit).2 = .error .invalidLimit ↔
        (limit ≤ 0 ∨ limit > 1000)) ∧
    (selectRows demoCatalog ["shop"] [] [] initState "users" (some "shop")
      none ([] : List (String × Nat)) [] 1000 =
      ({ inferredDb := none,
         schemaCache := [("shop.users", ["id", "email", "created_at"])] },
       .ok { sql := "SELECT `id`, `email`, `created_at` FROM `shop`.`users` LIMIT 1000",
             params := [] })) := by
  constructor
  · intro α catalog candidates cwdHints cwdMatches st table db columns
      whereList orderBy limit
    constructor
    · intro h
      by_contra hlim
      exact selectRows_no_limit_error catalog candidates cwdHints cwdMatches
        st table db columns whereList orderBy limit hlim h
    · intro hlim
      simp only [selectRows]
      rw [if_pos hlim]
  · rfl

/-- Closed instance of `select_rows_limit_rule`: limit 0 is rejected
with the limit error. -/
theorem select_rows_limit_rule_witness :
    (selectRows demoCatalog ["shop"] [] [] initState "users" (some "shop")
      none ([] : List (String × Nat)) [] 0).2 = .error .invalidLimit := by
  exact (select_rows_limit_rule.1 Nat demoCatalog ["shop"] [] [] initState
    "users" (some "shop") none [] [] 0).2 (by omega)

/-! ### C3: identifier whitelisting in select_rows -/

/-- C3 counterexample: per the spec an order_by entry is a column name
with at most one leading direction character, so "--id" stripped of its
direction prefix reads "-id", which is not in the authoritative column
list and should be rejected; the code instead strips every leading
mark (Python lstrip) and accepts the entry, returning a successful
DESC statement on column id. -/
theorem order_strip_counterexample :
    stripOneDirMark "--id" ∉ ["id", "email", "created_at"] ∧
    (selectRows demoCatalog ["shop"] [] [] initState "users" (some "shop")
      none ([] : List (String × Nat)) ["--id"] 100).2 =
      .ok { sql := "SELECT `id`, `email`, `created_at` FROM `shop`.`users` ORDER BY `id` DESC LIMIT 100",
            params := [] } :=
  ⟨by decide, rfl⟩

/-- C3 (amended): with the limit in range and the database and table
resolved against the schema cache, every caller-supplied selected
column, every where-condition key, and every order_by entry after
stripping all leading '-' and '+' characters must be a member of the
table's authoritative column list: the call succeeds exactly when all
the memberships hold (so any case or whitespace variation of a real
column name fails), every failure is one of the three identifier
errors naming an identifier absent from the list, and an omitted or
empty column list selects all columns in catalog order. -/
theorem select_rows_validation {α : Type}
    (catalog : String → String → List String)
    (candidates cwdHints : List String)
    (cwdMatches : List (String × List String)) (st st1 st2 : GuardState)
    (table dbname : String) (db : Option String)
    (columns : Option (List String)) (whereList : List (String × α))
    (orderBy : List String) (limit : Int) (allowed : List String)
    (hlim : ¬(limit ≤ 0 ∨ limit > 1000))
    (hres : resolveDatabase candidates cwdHints cwdMatches st db =
      (st1, .ok dbname))
    (hens : ensureTableCached catalog st1 dbname table = (st2, .ok ()))
    (hall : st2.schemaCache.lookup (dbname ++ "." ++ table) = some allowed) :
    (exceptIsOk (selectRows catalog candidates cwdHints cwdMatches st table db
        columns whereList orderBy limit).2 = true ↔
      ((∀ c ∈ columns.getD [], c ∈ allowed) ∧
       (∀ p ∈ whereList, p.1 ∈ allowed) ∧
       (∀ ob ∈ orderBy, lstripDashPlus ob ∈ allowed))) ∧
    (∀ e : Err,
      (selectRows catalog candidates cwdHints cwdMatches st table db columns
        whereList orderBy limit).2 = .error e →
      ∃ c, c ∉ allowed ∧
        (e = .invalidColumn c ∨ e = .invalidWhereColumn c ∨
          e = .invalidOrderColumn c)) ∧
    ((columns = none ∨ columns = some []) →
      ∀ stmt : Stmt α,
      (selectRows catalog candidates cwdHints cwdMatches st table db columns
        whereList orderBy limit).2 = .ok stmt →
      ∃ tail, stmt.sql =
        "SELECT " ++ String.intercalate ", " (allowed.map quoteId) ++
          " FROM " ++ tail) := by
  refine ⟨?_, ?_, ?_⟩
  · simp only [selectRows, if_neg hlim, hres, hens, hall, Option.getD_some]
    cases hw : checkCols allowed Err.invalidWhereColumn (whereList.map Prod.fst) with
    | error ew =>
      have hBfail : ¬ ∀ p ∈ whereList, p.1 ∈ allowed := by
        obtain ⟨k, hk, hkn, -⟩ := checkCols_error_shape _ _ _ _ hw
        obtain ⟨p, hp, rfl⟩ := List.mem_map.1 hk
        exact fun hwall => hkn (hwall p hp)
      rcases columns with _ | (_ | ⟨c0, cs⟩)
      · simp only [hw, exceptIsOk, Option.getD_none, Bool.false_eq_true, false_iff]
        rintro ⟨-, hB, -⟩
        exact hBfail hB
      · simp only [hw, exceptIsOk, List.isEmpty_nil, if_true, Option.getD_some,
          Bool.false_eq_true, false_iff]
        rintro ⟨-, hB, -⟩
        exact hBfail hB
      · cases hc : checkCols allowed Err.invalidColumn (c0 :: cs) with
        | error ec =>
          simp only [hc, hw, exceptIsOk, List.isEmpty_cons, Bool.false_eq_true,
            if_false, Option.getD_some, false_iff]
          rintro ⟨hA, -, -⟩
          obtain ⟨c, hcmem, hcn, -⟩ := checkCols_error_shape _ _ _ _ hc
          exact hcn (hA c hcmem)
        | ok uc =>
          simp only [hc, hw, exceptIsOk, List.isEmpty_cons, Bool.false_eq_true,
            if_false, Option.getD_some, false_iff]
          rintro ⟨-, hB, -⟩
          exact hBfail hB
    | ok uw =>
      cases uw
      have hB : ∀ p ∈ whereList, p.1 ∈ allowed := fun p hp =>
        ((checkCols_ok_iff _ _ _).1 hw) _ (List.mem_map_of_mem _ hp)
      cases ho : checkCols allowed Err.invalidOrderColumn (orderBy.map lstripDashPlus) with
      | error eo =>
        have hCfail : ¬ ∀ ob ∈ orderBy, lstripDashPlus ob ∈ allowed := by
          obtain ⟨k, hk, hkn, -⟩ := checkCols_error_shape _ _ _ _ ho
          obtain ⟨ob, hob, rfl⟩ := List.mem_map.1 hk
          exact fun hoall => hkn (hoall ob hob)
        rcases columns with _ | (_ | ⟨c0, cs⟩)
        · simp only [hw, ho, exceptIsOk, Option.getD_none, Bool.false_eq_true, false_iff]
          rintro ⟨-, -, hC⟩
          exact hCfail hC
        · simp only [hw, ho, exceptIsOk, List.isEmpty_nil, if_true, Option.getD_some,
            Bool.false_eq_true, false_iff]
          rintro ⟨-, -, hC⟩
          exact hCfail hC
        · cases hc : checkCols allowed Err.invalidColumn (c0 :: cs) with
          | error ec =>
            simp only [hc, hw, ho, exceptIsOk, List.isEmpty_cons, Bool.false_eq_true,
              if_false, Option.getD_some, false_iff]
            rintro ⟨hA, -, -⟩
            obtain ⟨c, hcmem, hcn, -⟩ := checkCols_error_shape _ _ _ _ hc
            exact hcn (hA c hcmem)
          | ok uc =>
            simp only [hc, hw, ho, exceptIsOk, List.isEmpty_cons, Bool.false_eq_true,
              if_false, Option.getD_some, false_iff]
            rintro ⟨-, -, hC⟩
            exact hCfail hC
      | ok uo =>
        cases uo
        have hC : ∀ ob ∈ orderBy, lstripDashPlus ob ∈ allowed := fun ob hob =>
          ((checkCols_ok_iff _ _ _).1 ho) _ (List.mem_map_of_mem _ hob)
        rcases columns with _ | (_ | ⟨c0, cs⟩)
        · simp only [hw, ho, exceptIsOk, Option.getD_none]
          exact ⟨fun _ => ⟨by simp, hB, hC⟩, fun _ => trivial⟩
        · simp only [hw, ho, exceptIsOk, List.isEmpty_nil, if_true, Option.getD_some]
          exact ⟨fun _ => ⟨by simp, hB, hC⟩, fun _ => trivial⟩
        · cases hc : checkCols allowed Err.invalidColumn (c0 :: cs) with
          | error ec =>
            simp only [hc, hw, ho, exceptIsOk, List.isEmpty_cons, Bool.false_eq_true,
              if_false, Option.getD_some, false_iff]
            rintro ⟨hA, -, -⟩
            obtain ⟨c, hcmem, hcn, -⟩ := checkCols_error_shape _ _ _ _ hc
            exact hcn (hA c hcmem)
          | ok uc =>
            cases uc
            have hA : ∀ c ∈ (c0 :: cs), c ∈ allowed := (checkCols_ok_iff _ _ _).1 hc
            simp only [hc, hw, ho, exceptIsOk, List.isEmpty_cons, Bool.false_eq_true,
              if_false, Option.getD_some]
            exact ⟨fun _ => ⟨hA, hB, hC⟩, fun _ => trivial⟩
  · intro e h
    simp only [selectRows, if_neg hlim, hres, hens, hall, Option.getD_some] at h
    split at h
    · rename_i e1 heq3
      simp only [Except.error.injEq] at h
      subst h
      split at heq3
      · split at heq3
        · simp at heq3
        · split at heq3
          · rename_i ec heq4
            simp only [Except.error.injEq] at heq3
            subst heq3
            obtain ⟨c, -, hcn, hce⟩ := checkCols_error_shape _ _ _ _ heq4
            exact ⟨c, hcn, Or.inl hce⟩
          · simp at heq3
      · simp at heq3
    · rename_i selCols heq3
      split at h
      · rename_i ew heq4
        simp only [Except.error.injEq] at h
        subst h
        obtain ⟨c, -, hcn, hce⟩ := checkCols_error_shape _ _ _ _ heq4
        exact ⟨c, hcn, Or.inr (Or.inl hce)⟩
      · rename_i uw heq4
        split at h
        · rename_i eo heq5
          simp only [Except.error.injEq] at h
          subst h
          obtain ⟨c, -, hcn, hce⟩ := checkCols_error_shape _ _ _ _ heq5
          exact ⟨c, hcn, Or.inr (Or.inr hce)⟩
        · rename_i uo heq5
          simp at h
  · intro hcols stmt h
    rcases hcols with rfl | rfl <;>
    · simp only [selectRows, if_neg hlim, hres, hens, hall, Option.getD_some,
        List.isEmpty_nil, if_true] at h
      split at h
      · simp at h
      · rename_i uw heq4
        split at h
        · simp at h
        · rename_i uo heq5
          simp only [Except.ok.injEq] at h
          subst h
          refine ⟨quoteId dbname ++ "." ++ quoteId table ++
            (if ((whereList.map Prod.fst).map
                (fun k => quoteId k ++ " = %s")).isEmpty then ""
             else " WHERE " ++ String.intercalate " AND "
               ((whereList.map Prod.fst).map
                 (fun k => quoteId k ++ " = %s"))) ++
            (if orderBy.isEmpty then ""
             else " ORDER BY " ++ String.intercalate ", "
               (orderBy.map (fun ob => quoteId (lstripDashPlus ob) ++ " " ++
                 (if startsWithDash ob then "DESC" else "ASC")))) ++
            " LIMIT " ++ toString limit, ?_⟩
          simp only [String.append_assoc]

/-- Closed instance of `select_rows_validation`: the where key nope is
not a column of the running example's table, so the call is not
successful. -/
theorem select_rows_validation_witness :
    exceptIsOk (selectRows demoCatalog ["shop"] [] [] initState "users"
      (some "shop") none [("nope", (1 : Nat))] [] 100).2 = false := by
  have h := (select_rows_validation demoCatalog ["shop"] [] []
    initState initState
    { inferredDb := none,
      schemaCache := [("shop.users", ["id", "email", "created_at"])] }
    "users" "shop" (some "shop") none [("nope", (1 : Nat))] [] 100
    ["id", "email", "created_at"]
    (by omega) (by rfl) (by rfl) (by rfl)).1
  cases hv : exceptIsOk (selectRows demoCatalog ["shop"] [] [] initState
      "users" (some "shop") none [("nope", (1 : Nat))] [] 100).2 with
  | false => rfl
  | true =>
    have hmem := (h.1 hv).2.1 ("nope", (1 : Nat)) (by simp)
    exact absurd hmem (by decide)

/-! ### C4: where values only travel as bound parameters -/

/-- C4: where-condition values reach the database only as bound
parameters and never appear in the generated SQL text: two calls with
identical table, database, columns, order_by and limit whose where
mappings have the same keys in the same order — but arbitrarily
different values — produce character-for-character identical SQL
statement text (and identical post-states). -/
theorem select_rows_sql_value_independent {α : Type}
    (catalog : String → String → List String)
    (candidates cwdHints : List String)
    (cwdMatches : List (String × List String)) (st : GuardState)
    (table : String) (db : Option String) (columns : Option (List String))
    (w1 w2 : List (String × α)) (orderBy : List String) (limit : Int)
    (hk : w1.map Prod.fst = w2.map Prod.fst) :
    (selectRows catalog candidates cwdHints cwdMatches st table db columns
        w1 orderBy limit).1 =
      (selectRows catalog candidates cwdHints cwdMatches st table db columns
        w2 orderBy limit).1 ∧
    Except.map Stmt.sql
        (selectRows catalog candidates cwdHints cwdMatches st table db columns
          w1 orderBy limit).2 =
      Except.map Stmt.sql
        (selectRows catalog candidates cwdHints cwdMatches st table db columns
          w2 orderBy limit).2 := by
  have key :
      ((selectRows catalog candidates cwdHints cwdMatches st table db columns
          w1 orderBy limit).1,
        Except.map Stmt.sql
          (selectRows catalog candidates cwdHints cwdMatches st table db
            columns w1 orderBy limit).2) =
      ((selectRows catalog candidates cwdHints cwdMatches st table db columns
          w2 orderBy limit).1,
        Except.map Stmt.sql
          (selectRows catalog candidates cwdHints cwdMatches st table db
            columns w2 orderBy limit).2) := by
    simp only [selectRows]
    by_cases hlim : limit ≤ 0 ∨ limit > 1000
    · simp only [if_pos hlim]
    · simp only [if_neg hlim]
      cases hres : resolveDatabase candidates cwdHints cwdMatches st db with
      | mk st1 r =>
        cases r with
        | error e => rfl
        | ok dbname =>
          dsimp only
          cases hens : ensureTableCached catalog st1 dbname table with
          | mk st2 r2 =>
            cases r2 with
            | error e => rfl
            | ok u =>
              dsimp only
              rw [hk]
              split
              · rfl
              · split
                · rfl
                · split
                  · rfl
                  · rfl
  have h1 := congrArg Prod.fst key
  have h2 := congrArg Prod.snd key
  exact ⟨h1, h2⟩

/-- Closed instance of `select_rows_sql_value_independent`: changing
the bound value of the id condition leaves the SQL text unchanged. -/
theorem select_rows_sql_value_independent_witness :
    Except.map Stmt.sql (selectRows demoCatalog ["shop"] [] [] initState
        "users" (some "shop") none [("id", (1 : Nat))] [] 100).2 =
      Except.map Stmt.sql (selectRows demoCatalog ["shop"] [] [] initState
        "users" (some "shop") none [("id", (2 : Nat))] [] 100).2 := by
  exact (select_rows_sql_value_independent demoCatalog ["shop"] [] []
    initState "users" (some "shop") none [("id", 1)] [("id", 2)] [] 100
    (by rfl)).2

/-! ### C5: primary-key reconciliation against the PRIMARY index -/

/-- Column rows of a composite-key table: a and b both carry the PRI
flag, a first in ordinal order. -/
def pkDemoColRows : List ColRow :=
  [{ columnName := "a", dataType := "int", columnType := "int(11)",
     isNullable := "NO", columnDefault := none, columnKey := "PRI",
     extra := "", columnComment := "", ordinalPosition := 1 },
   { columnName := "b", dataType := "int", columnType := "int(11)",
     isNullable := "NO", columnDefault := none, columnKey := "PRI",
     extra := "", columnComment := "", ordinalPosition := 2 }]

/-- STATISTICS rows of the same table: the PRIMARY index orders the
key b before a. -/
def pkDemoIdxRows : List IdxRow :=
  [{ indexName := "PRIMARY", nonUnique := 0, indexType := "BTREE",
     seqInIndex := 1, columnName := "b" },
   { indexName := "PRIMARY", nonUnique := 0, indexType := "BTREE",
     seqInIndex := 2, columnName := "a" }]

/-- C5 (code bug, evaluated at the failing input): when the flag pass
yields the ordinal order a, b but the PRIMARY index of the STATISTICS
catalog orders the key b, a, get_table_schema returns a, b — the
STATISTICS loop only appends columns missing from the flag pass and
never reorders, so the index-based order does not win, contrary to the
claim and to the code's own inline comment. -/
theorem primary_key_order_bug :
    Except.map TableSchemaResult.primaryKey
      (getTableSchema ["shop"] [] [] (fun _ _ => pkDemoColRows)
        (fun _ _ => none) (fun _ _ => pkDemoIdxRows) initState "t"
        (some "shop")).2 = .ok ["a", "b"] ∧
    (["a", "b"] : List String) ≠ ["b", "a"] := ⟨rfl, by decide⟩

/-! ### C7: zero columns is treated as not-found -/

/-- C7: a table whose catalog metadata reports zero columns fails with
the not-found error both in get_table_schema and in the schema-cache
fill used by select_rows; a missing table and an existing table with
no columns both give the catalog queries an empty row list, so the two
are treated identically. -/
theorem zero_columns_not_found
    (catalog : String → String → List String)
    (colCatalog : String → String → List ColRow)
    (commentCatalog : String → String → Option String)
    (idxCatalog : String → String → List IdxRow)
    (candidates cwdHints : List String)
    (cwdMatches : List (String × List String)) (st : GuardState)
    (dbname table : String) (hdb : dbname ≠ "")
    (hcols : colCatalog dbname table = [])
    (hcat : catalog dbname table = [])
    (hkey : st.schemaCache.lookup (dbname ++ "." ++ table) = none) :
    ensureTableCached catalog st dbname table =
      (st, .error (.tableNotFound table)) ∧
    (getTableSchema candidates cwdHints cwdMatches colCatalog commentCatalog
      idxCatalog st table (some dbname)).2 =
      .error (.tableNotFound table) := by
  constructor
  · simp [ensureTableCached, hkey, hcat]
  · have h1 : truthyOptStr (some dbname) = true := by simp [truthyOptStr, hdb]
    have hres : resolveDatabase candidates cwdHints cwdMatches st
        (some dbname) = (st, .ok dbname) := by
      simp [resolveDatabase, h1]
    simp [getTableSchema, hres, hcols]

/-- Closed instance of `zero_columns_not_found`: a catalog with no
rows at all reports the table ghost as not found in both places. -/
theorem zero_columns_not_found_witness :
    ensureTableCached (fun _ _ => []) initState "shop" "ghost" =
      (initState, .error (.tableNotFound "ghost")) ∧
    (getTableSchema ["shop"] [] [] (fun _ _ => []) (fun _ _ => none)
      (fun _ _ => []) initState "ghost" (some "shop")).2 =
      .error (.tableNotFound "ghost") := by
  exact zero_columns_not_found (fun _ _ => []) (fun _ _ => [])
    (fun _ _ => none) (fun _ _ => []) ["shop"] [] [] initState "shop" "ghost"
    (by decide) rfl rfl rfl

/-! ### C8: sanitized evidence is a function of counts and flags -/

theorem head?_filter_mem (l candidates : List String) (s : String)
    (h : (l.filter (fun x => candidates.contains x)).head? = some s) :
    s ∈ candidates := by
  cases hl : l.filter (fun x => candidates.contains x) with
  | nil => rw [hl] at h; simp at h
  | cons a as =>
    rw [hl] at h
    simp only [List.head?_cons, Option.some.injEq] at h
    subst h
    have ha : a ∈ l.filter (fun x => candidates.contains x) := by
      rw [hl]
      exact List.mem_cons_self _ _
    have hmem := List.mem_filter.1 ha
    simpa using hmem.2

theorem head?_mem_self (l : List String) (s : String) (h : l.head? = some s) :
    s ∈ l := by
  cases l with
  | nil => simp at h
  | cons a as =>
    simp only [List.head?_cons, Option.some.injEq] at h
    subst h
    exact List.mem_cons_self _ _

/-- A selection made by the internal inference is always one of the
accessible schemas. -/
theorem inferInternal_selected_mem (candidates rawHints : List String)
    (scanMatches : List (String × List String)) (s : String)
    (h : (inferDatabaseInternal candidates rawHints scanMatches).2.selected =
      some s) :
    s ∈ candidates := by
  simp only [inferDatabaseInternal] at h
  split at h
  · simp at h
  · split at h
    · simp only at h
      exact head?_filter_mem _ _ _ h
    · split at h
      · simp only at h
        exact head?_mem_self _ _ h
      · simp at h

/-- C8: the evidence surfaced externally by infer_database with
include_evidence=true holds only derived counts and booleans, and is a
function only of the candidate count, the hint count and the selection
flag — never of the scanned file paths or contents (the scan outputs
on the two sides are unconstrained) — given that the empty string is
not an accessible schema name. -/
theorem evidence_counts_only (c1 h1 : List String)
    (m1 : List (String × List String)) (c2 h2 : List String)
    (m2 : List (String × List String))
    (hne1 : "" ∉ c1) (hne2 : "" ∉ c2)
    (hcand : (externalizeEvidence (inferDatabaseInternal c1 h1 m1).2).candidatesCount =
      (externalizeEvidence (inferDatabaseInternal c2 h2 m2).2).candidatesCount)
    (hhint : (externalizeEvidence (inferDatabaseInternal c1 h1 m1).2).hintCount =
      (externalizeEvidence (inferDatabaseInternal c2 h2 m2).2).hintCount)
    (hsel : (externalizeEvidence (inferDatabaseInternal c1 h1 m1).2).selected =
      (externalizeEvidence (inferDatabaseInternal c2 h2 m2).2).selected) :
    externalizeEvidence (inferDatabaseInternal c1 h1 m1).2 =
      externalizeEvidence (inferDatabaseInternal c2 h2 m2).2 := by
  have hm : ∀ (c h : List String) (m : List (String × List String)),
      "" ∉ c →
      (externalizeEvidence (inferDatabaseInternal c h m).2).method =
        (if (externalizeEvidence (inferDatabaseInternal c h m).2).selected
          then some true else none) := by
    intro c h m hne
    cases hs : (inferDatabaseInternal c h m).2.selected with
    | none => simp [externalizeEvidence, hs]
    | some s =>
      have hmem := inferInternal_selected_mem c h m s hs
      have hsne : (s != "") = true := by
        simp only [bne_iff_ne, ne_eq]
        exact fun he => hne (he ▸ hmem)
      simp [externalizeEvidence, hs, hsne]
  have hmeth : (externalizeEvidence (inferDatabaseInternal c1 h1 m1).2).method =
      (externalizeEvidence (inferDatabaseInternal c2 h2 m2).2).method := by
    rw [hm c1 h1 m1 hne1, hm c2 h2 m2 hne2, hsel]
  calc externalizeEvidence (inferDatabaseInternal c1 h1 m1).2
      = ⟨(externalizeEvidence (inferDatabaseInternal c1 h1 m1).2).candidatesCount,
         (externalizeEvidence (inferDatabaseInternal c1 h1 m1).2).hintCount,
         (externalizeEvidence (inferDatabaseInternal c1 h1 m1).2).selected,
         (externalizeEvidence (inferDatabaseInternal c1 h1 m1).2).method⟩ := rfl
    _ = ⟨(externalizeEvidence (inferDatabaseInternal c2 h2 m2).2).candidatesCount,
         (externalizeEvidence (inferDatabaseInternal c2 h2 m2).2).hintCount,
         (externalizeEvidence (inferDatabaseInternal c2 h2 m2).2).selected,
         (externalizeEvidence (inferDatabaseInternal c2 h2 m2).2).method⟩ := by
        rw [hcand, hhint, hsel, hmeth]
    _ = externalizeEvidence (inferDatabaseInternal c2 h2 m2).2 := rfl

/-- Closed instance of `evidence_counts_only`: two scans with
different paths, contents and hint strings but equal counts and flags
surface identical evidence. -/
theorem evidence_counts_only_witness :
    externalizeEvidence (inferDatabaseInternal ["shop", "billing"] ["shop"]
      [("/a/.env", ["shop"])]).2 =
    externalizeEvidence (inferDatabaseInternal ["shop", "billing"]
      ["billing"] [("/b/config.json", ["billing"])]).2 := by
  exact evidence_counts_only ["shop", "billing"] ["shop"]
    [("/a/.env", ["shop"])] ["shop", "billing"] ["billing"]
    [("/b/config.json", ["billing"])] (by decide) (by decide) rfl rfl rfl

/-! ### C9: the cache and the inferred database are sticky -/

/-- Every populated schema-cache entry keeps its value. -/
def cachePreserved (st st' : GuardState) : Prop :=
  ∀ (k : String) (v : List String),
    st.schemaCache.lookup k = some v → st'.schemaCache.lookup k = some v

/-- A set inferred-database value is never cleared back to none. -/
def inferredPreserved (st st' : GuardState) : Prop :=
  st.inferredDb.isSome = true → st'.inferredDb.isSome = true

/-- The state invariant preserved by every operation. -/
def guardPreserved (st st' : GuardState) : Prop :=
  cachePreserved st st' ∧ inferredPreserved st st'

theorem guardPreserved_refl (s : GuardState) : guardPreserved s s :=
  ⟨fun _ _ hv => hv, id⟩

theorem guardPreserved_trans {s1 s2 s3 : GuardState}
    (h1 : guardPreserved s1 s2) (h2 : guardPreserved s2 s3) :
    guardPreserved s1 s3 :=
  ⟨fun k v hv => h2.1 k v (h1.1 k v hv), fun h => h2.2 (h1.2 h)⟩

theorem resolveFallback_preserves (candidates : List String)
    (st : GuardState) :
    guardPreserved st (resolveFallback candidates st).1 := by
  rcases candidates with _ | ⟨c, _ | ⟨d, cs⟩⟩
  · exact guardPreserved_refl st
  · exact ⟨fun k v hv => hv, fun _ => rfl⟩
  · exact guardPreserved_refl st

theorem resolveDatabase_preserves (candidates cwdHints : List String)
    (cwdMatches : List (String × List String)) (st : GuardState)
    (db : Option String) :
    guardPreserved st
      (resolveDatabase candidates cwdHints cwdMatches st db).1 := by
  simp only [resolveDatabase]
  split
  · exact guardPreserved_refl st
  · split
    · exact guardPreserved_refl st
    · split
      · rename_i hguess
        refine ⟨fun k v hv => hv, fun _ => ?_⟩
        cases hg : (inferDatabaseInternal candidates cwdHints cwdMatches).1 with
        | none =>
          rw [hg] at hguess
          simp [truthyOptStr] at hguess
        | some g => simp [hg]
      · exact resolveFallback_preserves candidates st

theorem ensureTableCached_preserves (catalog : String → String → List String)
    (st : GuardState) (db table : String) :
    guardPreserved st (ensureTableCached catalog st db table).1 := by
  simp only [ensureTableCached]
  split
  · exact guardPreserved_refl st
  · rename_i hnone
    split
    · exact guardPreserved_refl st
    · refine ⟨fun k v hv => ?_, fun h => h⟩
      simp only [List.lookup]
      cases hk : (k == db ++ "." ++ table) with
      | true =>
        have hkeq : k = db ++ "." ++ table := by simpa using hk
        rw [hkeq, hnone] at hv
        cases hv
      | false => simpa [hk] using hv

theorem selectRows_preserves {α : Type}
    (catalog : String → String → List String)
    (candidates cwdHints : List String)
    (cwdMatches : List (String × List String)) (st : GuardState)
    (table : String) (db : Option String) (columns : Option (List String))
    (whereList : List (String × α)) (orderBy : List String) (limit : Int) :
    guardPreserved st
      (selectRows catalog candidates cwdHints cwdMatches st table db columns
        whereList orderBy limit).1 := by
  simp only [selectRows]
  split
  · exact guardPreserved_refl st
  · cases hres : resolveDatabase candidates cwdHints cwdMatches st db with
    | mk st1 r =>
      have hp1 : guardPreserved st st1 := by
        have h := resolveDatabase_preserves candidates cwdHints cwdMatches st db
        rw [hres] at h
        exact h
      cases r with
      | error e => exact hp1
      | ok dbname =>
        dsimp only
        cases hens : ensureTableCached catalog st1 dbname table with
        | mk st2 r2 =>
          have hp2 : guardPreserved st1 st2 := by
            have h := ensureTableCached_preserves catalog st1 dbname table
            rw [hens] at h
            exact h
          have hp := guardPreserved_trans hp1 hp2
          cases r2 with
          | error e => exact hp
          | ok u =>
            dsimp only
            split
            · exact hp
            · split
              · exact hp
              · split
                · exact hp
                · exact hp

theorem listTables_preserves (candidates cwdHints : List String)
    (cwdMatches : List (String × List String))
    (tablesCatalog : String → List String) (st : GuardState)
    (db : Option String) :
    guardPreserved st
      (listTables candidates cwdHints cwdMatches tablesCatalog st db).1 := by
  simp only [listTables]
  cases hres : resolveDatabase candidates cwdHints cwdMatches st db with
  | mk st1 r =>
    have hp1 : guardPreserved st st1 := by
      have h := resolveDatabase_preserves candidates cwdHints cwdMatches st db
      rw [hres] at h
      exact h
    cases r with
    | error e => exact hp1
    | ok dbname => exact hp1

theorem getTableSchema_preserves (candidates cwdHints : List String)
    (cwdMatches : List (String × List String))
    (colCatalog : String → String → List ColRow)
    (commentCatalog : String → String → Option String)
    (idxCatalog : String → String → List IdxRow) (st : GuardState)
    (table : String) (db : Option String) :
    guardPreserved st
      (getTableSchema candidates cwdHints cwdMatches colCatalog
        commentCatalog idxCatalog st table db).1 := by
  simp only [getTableSchema]
  cases hres : resolveDatabase candidates cwdHints cwdMatches st db with
  | mk st1 r =>
    have hp1 : guardPreserved st st1 := by
      have h := resolveDatabase_preserves candidates cwdHints cwdMatches st db
      rw [hres] at h
      exact h
    cases r with
    | error e => exact hp1
    | ok dbname =>
      dsimp only
      split
      · exact hp1
      · exact hp1

theorem inferDatabaseTool_preserves (candidates rawHints : List String)
    (scanMatches : List (String × List String)) (st : GuardState)
    (includeEvidence : Bool) :
    guardPreserved st
      (inferDatabaseTool candidates rawHints scanMatches st
        includeEvidence).1 := by
  simp only [inferDatabaseTool]
  split
  · rename_i htruthy
    refine ⟨fun k v hv => hv, fun _ => ?_⟩
    cases hg : (inferDatabaseInternal candidates rawHints scanMatches).1 with
    | none =>
      rw [hg] at htruthy
      simp [truthyOptStr] at htruthy
    | some g => simp [hg]
  · exact guardPreserved_refl st

/-- C9: every operation preserves the state invariant: once a
schema-cache entry for a key is populated it is never removed or
overwritten for the process lifetime, and once the inferred database
is set it is never cleared back to none (it is only assigned by the
resolver steps and by a successful inference call). -/
theorem state_monotone (candidates cwdHints rawHints : List String)
    (cwdMatches scanMatches : List (String × List String))
    (catalog : String → String → List String)
    (tablesCatalog : String → List String)
    (colCatalog : String → String → List ColRow)
    (commentCatalog : String → String → Option String)
    (idxCatalog : String → String → List IdxRow) (st : GuardState) :
    (∀ db : Option String,
      guardPreserved st
        (resolveDatabase candidates cwdHints cwdMatches st db).1) ∧
    (∀ dbn tbl : String,
      guardPreserved st (ensureTableCached catalog st dbn tbl).1) ∧
    (∀ db : Option String,
      guardPreserved st
        (listTables candidates cwdHints cwdMatches tablesCatalog st db).1) ∧
    (∀ (tbl : String) (db : Option String),
      guardPreserved st
        (getTableSchema candidates cwdHints cwdMatches colCatalog
          commentCatalog idxCatalog st tbl db).1) ∧
    (∀ (α : Type) (tbl : String) (db : Option String)
      (columns : Option (List String)) (whereList : List (String × α))
      (orderBy : List String) (limit : Int),
      guardPreserved st
        (selectRows catalog candidates cwdHints cwdMatches st tbl db columns
          whereList orderBy limit).1) ∧
    (∀ inc : Bool,
      guardPreserved st
        (inferDatabaseTool candidates rawHints scanMatches st inc).1) :=
  ⟨fun db => resolveDatabase_preserves candidates cwdHints cwdMatches st db,
   fun dbn tbl => ensureTableCached_preserves catalog st dbn tbl,
   fun db => listTables_preserves candidates cwdHints cwdMatches tablesCatalog st db,
   fun tbl db => getTableSchema_preserves candidates cwdHints cwdMatches
     colCatalog commentCatalog idxCatalog st tbl db,
   fun α tbl db columns whereList orderBy limit => selectRows_preserves
     catalog candidates cwdHints cwdMatches st tbl db columns whereList
     orderBy limit,
   fun inc => inferDatabaseTool_preserves candidates rawHints scanMatches
     st inc⟩

/-- Closed instance of `state_monotone`: resolving with an already
inferred database leaves the inferred value set. -/
theorem state_monotone_witness :
    (resolveDatabase ["shop"] [] []
      ({ inferredDb := some "shop", schemaCache := [] } : GuardState)
      none).1.inferredDb.isSome = true := by
  have h := (state_monotone ["shop"] [] [] [] [] demoCatalog (fun _ => [])
    (fun _ _ => []) (fun _ _ => none) (fun _ _ => [])
    ({ inferredDb := some "shop", schemaCache := [] } : GuardState)).1 none
  exact h.2 rfl
